import Mathlib

/-!
Shallow embedding of `claude-shell-wrapper.py` (a PowerShell enforcement
wrapper): command validation (DENY_REGEX, control characters, structural
parse), log redaction, rate limiting, path translation, environment-variable
mapping, the persistent-session read loop, and the top-level request flow.

Conventions of the embedding:
 - Python strings are Lean `String`s; scanning work is done on `String.data`
   (lists of characters) so that every definition is executable and
   kernel-reducible.
 - Python exceptions are modelled with `Except PyErr`; a function that can
   raise returns `Except PyErr α`.
 - External collaborators (the `wslpath` conversion utility, the `bashlex`
   syntax parser, the PowerShell child process) are parameters: a
   `String → Option String` conversion oracle, a `String → BashParse`
   parse oracle, and explicit event lists for the session's output.
 - Machine clock readings are modelled as natural numbers (seconds).
-/

namespace CSW

/-! Character and list-of-character utilities. -/

/-- Named character constants, used instead of literals for quote-like
characters. -/
def squote : Char := Char.ofNat 39

def dquote : Char := Char.ofNat 34

def btick : Char := Char.ofNat 96

def lbrace : Char := Char.ofNat 123

def rbrace : Char := Char.ofNat 125

def nulChar : Char := Char.ofNat 0

def subChar : Char := Char.ofNat 26

/-- Python regex word character (`\w`) for the ASCII range: letters, digits
and underscore.  All inputs in this development are ASCII. -/
def wordChar (c : Char) : Bool := c.isAlphanum || c = '_'

/-- Does `sub` occur as a prefix of `s`? -/
def prefixEq : List Char → List Char → Bool
  | [], _ => true
  | _ :: _, [] => false
  | a :: as, b :: bs => a = b && prefixEq as bs

/-- Does `sub` occur as a contiguous substring of `s`?  Mirrors Python's
`sub in s`. -/
def containsSub (sub : List Char) : List Char → Bool
  | [] => prefixEq sub []
  | c :: rest => prefixEq sub (c :: rest) || containsSub sub rest

/-- Case-insensitive prefix test: `sub` is given lower-case and each character
of `s` is lowered before comparison (regex `re.IGNORECASE`). -/
def prefixEqCI : List Char → List Char → Bool
  | [], _ => true
  | _ :: _, [] => false
  | a :: as, b :: bs => a = b.toLower && prefixEqCI as bs

/-! Python exceptions. -/

/-- The Python exceptions the wrapper can raise, carrying `str(e)`. -/
inductive PyErr where
  | reError (m : String)
  | valueError (m : String)
  | runtimeError (m : String)
deriving DecidableEq

/-- The message of an exception, i.e. Python's `str(e)`. -/
def PyErr.msg : PyErr → String
  | .reError m => m
  | .valueError m => m
  | .runtimeError m => m

/-- The message CPython's `re` module produces for a replacement template
that references capture group 1 of a pattern that has no groups. -/
def reInvalidGroupMsg : String := "invalid group reference 1 at position 1"

/-! The `redact` function (source lines 63-73).

`redact` applies three `re.sub(pattern, replacement, text)` steps in order,
all with the replacement template `\1=***` (which references capture
group 1).  CPython compiles and validates the replacement template against
the pattern's group count before scanning the subject for matches, so a
template `\1` used with a zero-group pattern raises
`re.error("invalid group reference 1 at position 1")` whether or not the
pattern matches.  Pattern 1
`(?i)(password|token|secret|api_key|auth|credential)[\s=:]+\S+` has one
group, so its substitution succeeds; patterns 2 `(?i)-p\s+\S+` and 3
`(?i)--password[\s=]\S+` have zero groups, so their substitutions raise.
The text-rewriting behaviour of a successful substitution is irrelevant to
every claim (the first step's output is discarded when the second step
raises), so it is a parameter `subst`. -/

/-- One `re.sub` step with template `\1=***`: raises `re.error` when the
pattern has no capture group 1, otherwise rewrites via `subst`. -/
def reSubChecked (patternGroups : Nat) (subst : String → String) (s : String) :
    Except PyErr String :=
  if patternGroups < 1 then Except.error (PyErr.reError reInvalidGroupMsg)
  else Except.ok (subst s)

/-- Embedding of `redact` (source lines 63-73): three sequential `re.sub`
steps; the pattern group counts are 1, 0 and 0. -/
def redact (sub1 sub2 sub3 : String → String) (cmd : String) :
    Except PyErr String :=
  match reSubChecked 1 sub1 cmd with
  | Except.error e => Except.error e
  | Except.ok r1 =>
    match reSubChecked 0 sub2 r1 with
    | Except.error e => Except.error e
    | Except.ok r2 =>
      match reSubChecked 0 sub3 r2 with
      | Except.error e => Except.error e
      | Except.ok r3 => Except.ok r3

/-! The DENY_REGEX (source lines 31-34), compiled with `re.X | re.IGNORECASE`:

  `([\r\n]|;|\|\||&&|<\(|<<|[<>]{1,2}|[BT$]\(|\{.*\}|[*?]|[^\\]"[^"]*[*?]|\.\./)`
  `|\b(bash|zsh|sh|awk|sed|grep|ls|cat|chmod|find|rm|dd|su|sudo|passwd)\b`

(where BT stands for the backtick character).  `DENY_REGEX.search(cmd)`
succeeds iff some alternative matches somewhere in `cmd`; each alternative
is embedded as its own existence test below. -/

/-- Helper for the `\{.*\}` alternative: from a position just after a
left brace, is there a closing right brace reachable without crossing a
newline (regex `.` does not match a newline)? -/
def closeBeforeNL : List Char → Bool
  | [] => false
  | c :: rest =>
    if c = rbrace then true
    else if c = '\n' then false
    else closeBeforeNL rest

/-- The `\{.*\}` alternative: a left brace followed, with no intervening
newline, by a right brace. -/
def braceMatch : List Char → Bool
  | [] => false
  | c :: rest => (c = lbrace && closeBeforeNL rest) || braceMatch rest

/-- Helper for the `[^\\]"[^"]*[*?]` alternative: after the opening
double quote, scan `[^"]*` and then require `[*?]`. -/
def quoteGlobFrom : List Char → Bool
  | [] => false
  | c :: rest =>
    if c = '*' || c = '?' then true
    else if c = dquote then false
    else quoteGlobFrom rest

/-- The `[^\\]"[^"]*[*?]` alternative: a character other than a backslash,
then a double quote, then non-quote characters, then `*` or `?`. -/
def quoteGlobScan : List Char → Bool
  | [] => false
  | [_] => false
  | a :: b :: rest =>
    (a ≠ '\\' && b = dquote && quoteGlobFrom rest) || quoteGlobScan (b :: rest)

/-- The fixed denylist of foreign-shell/utility binary names
(second branch of DENY_REGEX). -/
def DENY_WORDS : List (List Char) :=
  ["bash", "zsh", "sh", "awk", "sed", "grep", "ls", "cat", "chmod", "find",
   "rm", "dd", "su", "sudo", "passwd"].map String.data

/-- Is there an occurrence of `name` (given lower-case) starting here,
case-insensitively, whose end is at a word boundary (`\b` after the name)?
The boundary before the name is checked by the caller via `prev`. -/
def wordHere (name : List Char) (prev : Option Char) (s : List Char) : Bool :=
  (match prev with
   | none => true
   | some p => !wordChar p) &&
  prefixEqCI name s &&
  (match s.drop name.length with
   | [] => true
   | c :: _ => !wordChar c)

/-- Scan `s` for a word-bounded, case-insensitive occurrence of `name`;
`prev` is the character immediately before the current position. -/
def scanWord (name : List Char) (prev : Option Char) : List Char → Bool
  | [] => false
  | c :: rest => wordHere name prev (c :: rest) || scanWord name (some c) rest

/-- The `\b(bash|...|passwd)\b` branch of DENY_REGEX: some denylisted name
occurs word-bounded and case-insensitively anywhere in the string. -/
def denyWordHit (s : List Char) : Bool :=
  DENY_WORDS.any (fun w => scanWord w none s)

/-- Embedding of `DENY_REGEX.search(cmd) ≠ None` (source lines 31-34):
the disjunction of all alternatives of the pattern, in source order. -/
def denyRegexMatches (cmd : String) : Bool :=
  containsSub ['\r'] cmd.data || containsSub ['\n'] cmd.data ||
  containsSub [';'] cmd.data ||
  containsSub ['|', '|'] cmd.data || containsSub ['&', '&'] cmd.data ||
  containsSub ['<', '('] cmd.data || containsSub ['<', '<'] cmd.data ||
  containsSub ['<'] cmd.data || containsSub ['>'] cmd.data ||
  containsSub [btick, '('] cmd.data || containsSub ['$', '('] cmd.data ||
  braceMatch cmd.data ||
  containsSub ['*'] cmd.data || containsSub ['?'] cmd.data ||
  quoteGlobScan cmd.data ||
  containsSub ['.', '.', '/'] cmd.data ||
  denyWordHit cmd.data

/-! The `risky` validator (source lines 143-167). -/

/-- Outcome of the external `bashlex` parse collaborator: a parse failure
(`bashlex.errors.ParsingError`) or a syntax tree, recorded together with
whether walking it finds a node of a blocked compound kind
(pipeline, list, compound, function, for, while, if). -/
inductive BashParse where
  | parseFail
  | tree (compound : Bool)

/-- Embedding of `risky` (source lines 143-167).  Each deny branch first
evaluates `redact cmd` inside a logging f-string; since `redact` raises,
a denial surfaces as the raised exception rather than `return True`.
The allow path returns `false` without logging. -/
def risky (parse : String → BashParse) (cmd : String) : Except PyErr Bool :=
  if denyRegexMatches cmd then
    match redact id id id cmd with
    | Except.error e => Except.error e
    | Except.ok _ => Except.ok true
  else if containsSub [nulChar] cmd.data || containsSub [subChar] cmd.data then
    match redact id id id cmd with
    | Except.error e => Except.error e
    | Except.ok _ => Except.ok true
  else
    match parse cmd with
    | BashParse.parseFail =>
      match redact id id id cmd with
      | Except.error e => Except.error e
      | Except.ok _ => Except.ok true
    | BashParse.tree true =>
      match redact id id id cmd with
      | Except.error e => Except.error e
      | Except.ok _ => Except.ok true
    | BashParse.tree false => Except.ok false

/-! The rate limiter `check_rate_limit` (source lines 75-90).
Timestamps (`time.time()` readings) are modelled as natural numbers and the
FIFO queue `_command_times` as a list with its head the oldest entry.  The
lock only serialises callers, which the functional model does inherently. -/

/-- The configured threshold (source line 47): commands per minute. -/
def MAX_COMMAND_RATE : Nat := 100

/-- The pruning loop: pop entries from the front of the queue while the
front entry is more than 60 seconds old. -/
def pruneOld (now : Nat) : List Nat → List Nat
  | [] => []
  | t :: rest => if 60 < now - t then pruneOld now rest else t :: rest

/-- Embedding of `check_rate_limit` (source lines 75-90): prune old entries;
deny without recording when the pruned queue is at or above the threshold;
otherwise record `now` and allow.  Returns the verdict and the new queue. -/
def check_rate_limit (now : Nat) (q : List Nat) : Bool × List Nat :=
  if MAX_COMMAND_RATE ≤ (pruneOld now q).length then (false, pruneOld now q)
  else (true, pruneOld now q ++ [now])

/-- A sequence of calls to `check_rate_limit` at the given times, starting
from queue `q`; returns the verdicts in order and the final queue. -/
def callSeq : List Nat → List Nat → List Bool × List Nat
  | [], q => ([], q)
  | t :: ts, q =>
    ((check_rate_limit t q).1 :: (callSeq ts (check_rate_limit t q).2).1,
     (callSeq ts (check_rate_limit t q).2).2)

/-! Path validation and translation (source lines 93-131). -/

/-- Python `str.strip()` whitespace characters. -/
def pySpace (c : Char) : Bool :=
  c = ' ' || c = '\t' || c = '\n' || c = '\r' ||
  c = Char.ofNat 11 || c = Char.ofNat 12

/-- Python `str.strip()`: drop leading and trailing whitespace. -/
def pyStrip (s : String) : String :=
  String.mk (((s.data.dropWhile pySpace).reverse.dropWhile pySpace).reverse)

/-- Embedding of `validate_path` (source lines 93-97): reject when the
string contains the two-character substring `..` anywhere or starts with
`//`. -/
def validate_path (path : String) : Bool :=
  if containsSub ['.', '.'] path.data || prefixEq ['/', '/'] path.data
  then false else true

/-- The post-processing of a successful `wslpath` conversion (source lines
105-114): strip the output; when its length reaches 240, prepend the
extended-length prefix and turn every `/` into a backslash. -/
def convertOut (raw : String) : String :=
  if 240 ≤ (pyStrip raw).length then
    "\\\\?\\" ++ String.mk ((pyStrip raw).data.map
      (fun c => if c = '/' then '\\' else c))
  else pyStrip raw

/-- The non-raising body of `to_windows_path`: the converted value on
collaborator success, the original token on collaborator failure
(non-zero exit, timeout or missing binary are all `wsl p = none`). -/
def convertOk (wsl : String → Option String) (p : String) : String :=
  match wsl p with
  | none => p
  | some raw => convertOut raw

/-- Embedding of `to_windows_path` (source lines 99-117), parameterised by
the external `wslpath` collaborator: raises `ValueError` when
`validate_path` rejects, otherwise never raises. -/
def to_windows_path (wsl : String → Option String) (p : String) :
    Except PyErr String :=
  if validate_path p = false then
    Except.error (PyErr.valueError ("Invalid path detected: " ++ p))
  else Except.ok (convertOk wsl p)

/-- A token is a translation candidate (source line 124) when it starts
with `/mnt/`, or starts with `/` and contains another `/` after the first
character. -/
def pathCandidate (tok : String) : Bool :=
  prefixEq "/mnt/".data tok.data ||
  (prefixEq ['/'] tok.data && containsSub ['/'] (tok.data.drop 1))

/-- Embedding of `translate_tokens` (source lines 119-131): convert each
candidate token, pass other tokens through; a `ValueError` from
`to_windows_path` propagates. -/
def translate_tokens (wsl : String → Option String) :
    List String → Except PyErr (List String)
  | [] => Except.ok []
  | tok :: rest =>
    match (if pathCandidate tok then to_windows_path wsl tok
           else Except.ok tok) with
    | Except.error e => Except.error e
    | Except.ok t2 =>
      match translate_tokens wsl rest with
      | Except.error e => Except.error e
      | Except.ok r2 => Except.ok (t2 :: r2)

/-- Split a character list on every occurrence of `c` (Python
`s.split(c)` for a one-character separator). -/
def splitChar (c : Char) : List Char → List (List Char)
  | [] => [[]]
  | a :: rest =>
    if a = c then [] :: splitChar c rest
    else
      match splitChar c rest with
      | [] => [[a]]
      | g :: gs => (a :: g) :: gs

/-- Modelled from the claim's words, for comparison with `validate_path`:
does the path have a `/`-separated segment that is exactly `..`?  (The
source checks for the substring `..` instead.) -/
def specDotDotSegment (p : String) : Bool :=
  (splitChar '/' p.data).any (fun seg => seg = ['.', '.'])

/-! Environment-variable mapping (source lines 36-43 and 133-140). -/

/-- Embedding of the `ENV_MAP` table with Python's `dict.get(key, key)`
lookup (source lines 36-43, 137). -/
def ENV_MAP (k : String) : String :=
  if k = "HOME" then "USERPROFILE"
  else if k = "USER" then "USERNAME"
  else if k = "PWD" then "PWD"
  else if k = "PATH" then "PATH"
  else if k = "TMPDIR" then "TEMP"
  else if k = "TMP" then "TEMP"
  else k

/-- The scan of `re.sub(r'\$(\w+)|\${(\w+)}', repl, cmd)` (source lines
133-140): at a `$`, try `$NAME` (greedy run of word characters), then
`${NAME}`; on a match emit `$env:` followed by the mapped name and resume
after the match; otherwise copy one character and resume.  `fuel` is an
upper bound on the number of scan steps (each step consumes at least one
character, so `length + 1` suffices and the fuel never runs out). -/
def envGoF : Nat → List Char → List Char
  | 0, l => l
  | _ + 1, [] => []
  | fuel + 1, c :: rest =>
    if c = '$' then
      if (rest.takeWhile wordChar).isEmpty then
        match rest with
        | [] => [c]
        | b :: r2 =>
          if b = lbrace then
            match r2.dropWhile wordChar with
            | [] => c :: envGoF fuel rest
            | rb :: r3 =>
              if rb = rbrace && !(r2.takeWhile wordChar).isEmpty then
                "$env:".data ++ (ENV_MAP (String.mk (r2.takeWhile wordChar))).data
                  ++ envGoF fuel r3
              else c :: envGoF fuel rest
          else c :: envGoF fuel rest
      else
        "$env:".data ++ (ENV_MAP (String.mk (rest.takeWhile wordChar))).data
          ++ envGoF fuel (rest.dropWhile wordChar)
    else c :: envGoF fuel rest

/-- Embedding of `map_env_vars` (source lines 133-140). -/
def map_env_vars (cmd : String) : String :=
  String.mk (envGoF (cmd.data.length + 1) cmd.data)

/-! The tokeniser `shlex.split(raw, posix=True)` used by `main` (source
line 414), modelled from the Python standard library's POSIX rules with
`whitespace_split`: whitespace separates tokens; single quotes are
literal; double quotes allow backslash escapes of backslash and double
quote (any other escaped character keeps the backslash); a backslash
outside quotes escapes the next character; an unterminated quote raises
`ValueError("No closing quotation")` and a trailing escape raises
`ValueError("No escaped character")`. -/

/-- Tokeniser state: outside quotes, inside single quotes, inside double
quotes. -/
inductive ShMode where
  | normal
  | singleQ
  | doubleQ

/-- The tokeniser loop.  `started` records whether the current token has
begun (so that an empty quoted string still yields a token); `cur` is the
current token's characters.  `fuel` bounds the number of steps; every step
consumes at least one input character, so `length + 1` never runs out
(the fuel-exhausted branch is unreachable for the initial fuel). -/
def shlexGo : Nat → List Char → ShMode → Bool → List Char →
    Except PyErr (List String)
  | 0, _, _, _, _ => Except.error (PyErr.runtimeError "shlex fuel exhausted")
  | _ + 1, [], ShMode.normal, started, cur =>
    Except.ok (if started then [String.mk cur] else [])
  | _ + 1, [], ShMode.singleQ, _, _ =>
    Except.error (PyErr.valueError "No closing quotation")
  | _ + 1, [], ShMode.doubleQ, _, _ =>
    Except.error (PyErr.valueError "No closing quotation")
  | fuel + 1, c :: rest, ShMode.normal, started, cur =>
    if c = ' ' || c = '\t' || c = '\r' || c = '\n' then
      if started then
        match shlexGo fuel rest ShMode.normal false [] with
        | Except.error e => Except.error e
        | Except.ok toks => Except.ok (String.mk cur :: toks)
      else shlexGo fuel rest ShMode.normal false []
    else if c = squote then shlexGo fuel rest ShMode.singleQ true cur
    else if c = dquote then shlexGo fuel rest ShMode.doubleQ true cur
    else if c = '\\' then
      match rest with
      | [] => Except.error (PyErr.valueError "No escaped character")
      | d :: rest2 => shlexGo fuel rest2 ShMode.normal true (cur ++ [d])
    else shlexGo fuel rest ShMode.normal true (cur ++ [c])
  | fuel + 1, c :: rest, ShMode.singleQ, _, cur =>
    if c = squote then shlexGo fuel rest ShMode.normal true cur
    else shlexGo fuel rest ShMode.singleQ true (cur ++ [c])
  | fuel + 1, c :: rest, ShMode.doubleQ, _, cur =>
    if c = dquote then shlexGo fuel rest ShMode.normal true cur
    else if c = '\\' then
      match rest with
      | [] => Except.error (PyErr.valueError "No closing quotation")
      | d :: rest2 =>
        if d = dquote || d = '\\' then
          shlexGo fuel rest2 ShMode.doubleQ true (cur ++ [d])
        else shlexGo fuel rest2 ShMode.doubleQ true (cur ++ ['\\', d])
    else shlexGo fuel rest ShMode.doubleQ true (cur ++ [c])

/-- Embedding of `shlex.split(raw, posix=True)`. -/
def shlexSplit (raw : String) : Except PyErr (List String) :=
  shlexGo (raw.data.length + 1) raw.data ShMode.normal false []

/-! The re-quoting step `subprocess.list2cmdline(tokens)` used by `main`
(source line 419), modelled from CPython's implementation of the
MS C runtime quoting rules. -/

/-- The character loop of `list2cmdline` for one argument: `n` pending
backslashes; a double quote doubles them and emits an escaped quote; any
other character flushes them as-is; at the end they are flushed once. -/
def l2cBody : List Char → Nat → List Char
  | [], n => List.replicate n '\\'
  | c :: rest, n =>
    if c = '\\' then l2cBody rest (n + 1)
    else if c = dquote then
      List.replicate (2 * n) '\\' ++ '\\' :: dquote :: l2cBody rest 0
    else List.replicate n '\\' ++ c :: l2cBody rest 0

/-- Encode one argument: quote it when it contains a space or tab or is
empty; when quoting, the trailing run of backslashes is emitted a second
time before the closing quote (CPython flushes `bs_buf` again). -/
def l2cArg (arg : String) : List Char :=
  if arg.data.contains ' ' || arg.data.contains '\t' || arg.data.isEmpty then
    dquote :: (l2cBody arg.data 0 ++
      List.replicate (arg.data.reverse.takeWhile (fun c => c = '\\')).length '\\'
      ++ [dquote])
  else l2cBody arg.data 0

/-- Join encoded arguments with single spaces. -/
def joinSpace : List (List Char) → List Char
  | [] => []
  | [x] => x
  | x :: y :: rest => x ++ ' ' :: joinSpace (y :: rest)

/-- Embedding of `subprocess.list2cmdline`. -/
def list2cmdline (args : List String) : String :=
  String.mk (joinSpace (args.map l2cArg))

/-- Python `' '.join(tokens)` (source line 416). -/
def joinTokens : List String → String
  | [] => ""
  | [x] => x
  | x :: y :: rest => x ++ " " ++ joinTokens (y :: rest)

/-! The main flow (source lines 387-459). -/

/-- The parse-and-convert block of `main` (source lines 413-419):
tokenise, translate paths, compute the environment-mapped string `cmd`
(which the source never uses again), and build `cmd_win`, the string that
is handed to the session.  Raises on tokeniser or path-validation errors. -/
def parseAndConvert (wsl : String → Option String) (raw : String) :
    Except PyErr String :=
  match shlexSplit raw with
  | Except.error e => Except.error e
  | Except.ok tokens =>
    match translate_tokens wsl tokens with
    | Except.error e => Except.error e
    | Except.ok tokens2 =>
      let _cmd := map_env_vars (joinTokens tokens2)
      Except.ok (list2cmdline tokens2)

/-- The observable outcome of one `main` invocation: the process exit
code, the wrapper's own stderr message, and the command string handed to
`runner.run` (`none` when nothing is ever executed). -/
structure MainOutcome where
  exitCode : Int
  stderrText : String
  handed : Option String
deriving DecidableEq

/-- Embedding of `main` (source lines 387-459) for a non-interactive
invocation with captured raw command `raw`.  The logging line
`logging.info(f"CMD: {redact(raw)}")` evaluates `redact raw` before
validation; an exception from it, or from `risky`, reaches the outermost
handler, which prints an unexpected-error message and exits 1.  Parse
errors print a parsing-error message; a denial prints the
policy-blocked message; otherwise `cmd_win` is handed to the runner. -/
def main (wsl : String → Option String) (parse : String → BashParse)
    (runner : String → Int × String × String) (raw : String) : MainOutcome :=
  if raw = "" then { exitCode := 0, stderrText := "", handed := none }
  else
    match redact id id id raw with
    | Except.error e =>
      { exitCode := 1,
        stderrText := "❌ Unexpected error: " ++ PyErr.msg e ++ "\n",
        handed := none }
    | Except.ok _ =>
      match risky parse raw with
      | Except.error e =>
        { exitCode := 1,
          stderrText := "❌ Unexpected error: " ++ PyErr.msg e ++ "\n",
          handed := none }
      | Except.ok true =>
        { exitCode := 1,
          stderrText := "❌ Command blocked by security policy.\n",
          handed := none }
      | Except.ok false =>
        match parseAndConvert wsl raw with
        | Except.error e =>
          { exitCode := 1,
            stderrText := "❌ Command parsing error: " ++ PyErr.msg e ++ "\n",
            handed := none }
        | Except.ok cmdWin =>
          { exitCode := (runner cmdWin).1,
            stderrText := (runner cmdWin).2.2,
            handed := some cmdWin }

/-! The session read loop `PSRunner._execute_command` (source lines
282-348) and the recovery logic of `PSRunner.run` (source lines 350-372). -/

/-- Python `int()` digit-run value. -/
def digitsVal : List Char → Option Nat
  | [] => none
  | [c] => if c.isDigit then some (c.toNat - 48) else none
  | c :: rest =>
    if c.isDigit then
      match digitsVal rest with
      | none => none
      | some n => some ((c.toNat - 48) * 10 ^ rest.length + n)
    else none

/-- Python `int(s)` on an already meaningful literal: optional sign and a
non-empty digit run after stripping whitespace; `none` models the
`ValueError` branch. -/
def pyIntOf (s : String) : Option Int :=
  match (pyStrip s).data with
  | '+' :: ds => (digitsVal ds).map (fun n => (n : Int))
  | '-' :: ds => (digitsVal ds).map (fun n => -(n : Int))
  | ds => (digitsVal ds).map (fun n => (n : Int))

/-- Parse the sentinel line's exit code, `int(line.split(":")[1].strip())`
with fall-back 1 on `ValueError` or `IndexError` (source lines 315-318). -/
def sentinelCode (line : String) : Int :=
  match (splitChar ':' line.data).drop 1 with
  | [] => 1
  | part :: _ =>
    match pyIntOf (String.mk part) with
    | none => 1
    | some n => n

/-- One observable behaviour of the child process's stdout during the read
loop: a list of pairs of the elapsed wall-clock seconds when the loop
guard is evaluated and the line `readline` then returns (the empty string
models a read that returned no data, after which the loop sleeps and
retries).  An exhausted list models a child that produces nothing more
before the deadline. -/
def ReadEvents : Type := List (Nat × String)

/-- The read loop of `_execute_command` (source lines 306-329).  A line
within the deadline starting with `EXIT-CODE:` ends the loop with the
parsed code and the accumulated stdout lines.  When the deadline elapses
first, the source's timeout branch evaluates
`logging.warning(f"... {redact(cmd)}")` before it can assign
`exit_code = 124`, and `redact` raises, so the loop ends in the raised
`re.error` instead of producing 124. -/
def readLoop (timeout : Nat) : List (Nat × String) → List String →
    Except PyErr (Int × List String)
  | [], _ => Except.error (PyErr.reError reInvalidGroupMsg)
  | (t, line) :: rest, acc =>
    if timeout ≤ t then Except.error (PyErr.reError reInvalidGroupMsg)
    else if line = "" then readLoop timeout rest acc
    else if prefixEq "EXIT-CODE:".data line.data then
      Except.ok (sentinelCode line, acc)
    else readLoop timeout rest (acc ++ [line])

/-- The session state `_execute_command` observes: whether the child is
alive at entry, whether writing the framed command to stdin succeeds, the
stdout read events, and the stderr lines drained after the loop. -/
structure ExecEnv where
  procAlive : Bool
  stdinOk : Bool
  events : List (Nat × String)
  errLines : List String

/-- Embedding of `_execute_command` (source lines 282-348): raise when the
child is gone or stdin is broken, run the read loop, then join stdout and
the drained stderr. -/
def executeCommand (env : ExecEnv) (timeout : Nat) :
    Except PyErr (Int × String × String) :=
  if env.procAlive = false then
    Except.error (PyErr.runtimeError "PowerShell process not available")
  else if env.stdinOk = false then
    Except.error (PyErr.runtimeError "PowerShell stdin pipe broken")
  else
    match readLoop timeout env.events [] with
    | Except.error e => Except.error e
    | Except.ok (code, outLines) =>
      Except.ok (code, String.join outLines, String.join env.errLines)

/-- Embedding of `PSRunner.run` (source lines 350-372), parameterised by
the rate-limit verdict, the health-check verdict, the outcome of the n-th
`_execute_command` attempt for this command, and the outcome of the
`_start_process` restart.  Returns the result together with the number of
`_execute_command` attempts made for the command (the working-directory
sync probe of the success path swallows its own errors and is not
counted).  On a first failure the source restarts and retries exactly
once; a failure of the restart or of the retry yields the generic
execution-failed result carrying the FIRST exception's message. -/
def runCmd (rateOk healthy : Bool)
    (execAttempt : Nat → Except PyErr (Int × String × String))
    (restart : Except PyErr Unit) : (Int × String × String) × Nat :=
  if rateOk = false then
    ((1, "", "ERROR: Command rate limit exceeded\n"), 0)
  else if healthy = false then
    ((1, "", "ERROR: PowerShell process unhealthy\n"), 0)
  else
    match execAttempt 0 with
    | Except.ok r => (r, 1)
    | Except.error e =>
      match restart with
      | Except.error _ =>
        ((1, "", "ERROR: Command execution failed: " ++ PyErr.msg e ++ "\n"), 1)
      | Except.ok _ =>
        match execAttempt 1 with
        | Except.ok r => (r, 2)
        | Except.error _ =>
          ((1, "", "ERROR: Command execution failed: " ++ PyErr.msg e ++ "\n"), 2)

/-! Helper lemmas. -/

/-- `redact` raises `re.error` on every input: the second `re.sub` pattern
has no capture groups while the template references group 1. -/
theorem redact_error (sub1 sub2 sub3 : String → String) (cmd : String) :
    redact sub1 sub2 sub3 cmd =
      Except.error (PyErr.reError reInvalidGroupMsg) := rfl

/-- When DENY_REGEX matches, `risky` ends in the `re.error` raised by the
`redact` call of its logging line. -/
theorem risky_error_of_regex (parse : String → BashParse) (cmd : String)
    (h : denyRegexMatches cmd = true) :
    risky parse cmd = Except.error (PyErr.reError reInvalidGroupMsg) := by
  unfold risky
  rw [h]
  simp [redact_error]

/-- Pruning keeps a queue whose front entry is at most 60 seconds old. -/
theorem pruneOld_keep (now h : Nat) (t : List Nat) (hh : now ≤ h + 60) :
    pruneOld now (h :: t) = h :: t := by
  unfold pruneOld
  rw [if_neg]
  omega

/-- Pruning drops a front entry that is more than 60 seconds old. -/
theorem pruneOld_drop (now h : Nat) (t : List Nat) (hh : 60 < now - h) :
    pruneOld now (h :: t) = pruneOld now t := by
  simp only [pruneOld]
  rw [if_pos hh]

/-- Pruning never lengthens the queue. -/
theorem pruneOld_length_le (now : Nat) (q : List Nat) :
    (pruneOld now q).length ≤ q.length := by
  induction q with
  | nil => simp [pruneOld]
  | cons h t ih =>
    unfold pruneOld
    split
    · exact Nat.le_succ_of_le ih
    · simp

/-- `callSeq` distributes over list append. -/
theorem callSeq_append (a b q : List Nat) :
    callSeq (a ++ b) q =
      ((callSeq a q).1 ++ (callSeq b (callSeq a q).2).1,
       (callSeq b (callSeq a q).2).2) := by
  induction a generalizing q with
  | nil => simp [callSeq]
  | cons t a ih => simp [callSeq, ih]

/-- While the queue still has room and every call time lies inside the
60-second window anchored at `t0`, every call is admitted and recorded. -/
theorem callSeq_fill (t0 : Nat) (ts : List Nat) :
    ∀ q : List Nat,
      (∀ t ∈ ts, t0 ≤ t ∧ t ≤ t0 + 60) →
      (∀ h, q.head? = some h → t0 ≤ h) →
      q.length + ts.length ≤ MAX_COMMAND_RATE →
      callSeq ts q = (List.replicate ts.length true, q ++ ts) := by
  induction ts with
  | nil => intro q _ _ _; simp [callSeq]
  | cons t ts ih =>
    intro q hwin hhead hlen
    have ht : t0 ≤ t ∧ t ≤ t0 + 60 := hwin t (List.mem_cons_self t ts)
    have hprune : pruneOld t q = q := by
      cases q with
      | nil => rfl
      | cons h rest =>
        have h0 : t0 ≤ h := hhead h rfl
        exact pruneOld_keep t h rest (by omega)
    have hroom : ¬ MAX_COMMAND_RATE ≤ (pruneOld t q).length := by
      rw [hprune]
      simp only [List.length_cons] at hlen
      omega
    have hcheck : check_rate_limit t q = (true, q ++ [t]) := by
      unfold check_rate_limit
      rw [if_neg hroom, hprune]
    have hwin2 : ∀ u ∈ ts, t0 ≤ u ∧ u ≤ t0 + 60 := by
      intro u hu; exact hwin u (List.mem_cons_of_mem t hu)
    have hhead2 : ∀ h, (q ++ [t]).head? = some h → t0 ≤ h := by
      intro h hh
      cases q with
      | nil =>
        have ht2 : t = h := by simpa using hh
        omega
      | cons a rest =>
        have ha2 : a = h := by simpa using hh
        exact ha2 ▸ hhead a rfl
    have hlen2 : (q ++ [t]).length + ts.length ≤ MAX_COMMAND_RATE := by
      simp only [List.length_append, List.length_cons, List.length_nil]
        at hlen ⊢
      omega
    have hrec : callSeq ts (q ++ [t]) =
        (List.replicate ts.length true, (q ++ [t]) ++ ts) :=
      ih (q ++ [t]) hwin2 hhead2 hlen2
    unfold callSeq
    rw [hcheck]
    simp [hrec, List.replicate_succ, List.append_assoc]

/-- When no line within the deadline is a sentinel line, the read loop
ends in the timeout branch, whose logging call re-raises `redact`'s
`re.error` before the 124 assignment is reached. -/
theorem readLoop_no_sentinel (timeout : Nat) (events : List (Nat × String)) :
    ∀ acc : List String,
      (∀ p ∈ events, p.1 < timeout →
        prefixEq "EXIT-CODE:".data p.2.data = false) →
      readLoop timeout events acc =
        Except.error (PyErr.reError reInvalidGroupMsg) := by
  induction events with
  | nil => intro acc _; rfl
  | cons p rest ih =>
    intro acc hns
    obtain ⟨t, line⟩ := p
    unfold readLoop
    by_cases hto : timeout ≤ t
    · rw [if_pos hto]
    · rw [if_neg hto]
      have hline : prefixEq "EXIT-CODE:".data line.data = false :=
        hns (t, line) (List.mem_cons_self _ _) (by omega)
      by_cases hemp : line = ""
      · rw [if_pos hemp]
        exact ih acc (fun p hp => hns p (List.mem_cons_of_mem _ hp))
      · rw [if_neg hemp, hline]
        simp only [Bool.false_eq_true, if_false]
        exact ih (acc ++ [line]) (fun p hp => hns p (List.mem_cons_of_mem _ hp))

/-- `to_windows_path` succeeds exactly with the non-raising conversion
when validation passes. -/
theorem to_windows_path_ok (wsl : String → Option String) (p : String)
    (h : validate_path p = true) :
    to_windows_path wsl p = Except.ok (convertOk wsl p) := by
  unfold to_windows_path
  rw [h]
  simp

/-- A path-shaped token containing the substring `..` fails validation. -/
theorem validate_path_false_of_dotdot (p : String)
    (h : containsSub ['.', '.'] p.data = true) : validate_path p = false := by
  unfold validate_path
  rw [h]
  simp

/-- `translate_tokens` succeeds and maps each token when every path-shaped
token passes validation. -/
theorem translate_tokens_total (wsl : String → Option String)
    (tokens : List String)
    (h : ∀ t ∈ tokens, pathCandidate t = true → validate_path t = true) :
    translate_tokens wsl tokens =
      Except.ok (tokens.map
        (fun t => if pathCandidate t then convertOk wsl t else t)) := by
  induction tokens with
  | nil => rfl
  | cons tok rest ih =>
    have hrec := ih (fun t ht => h t (List.mem_cons_of_mem tok ht))
    unfold translate_tokens
    by_cases hc : pathCandidate tok = true
    · rw [if_pos hc,
        to_windows_path_ok wsl tok (h tok (List.mem_cons_self tok rest) hc),
        hrec]
      simp [hc]
    · rw [if_neg hc, hrec]
      simp only [Bool.not_eq_true] at hc
      simp [hc]

/-- A token list containing a path-shaped token with a `..` substring makes
`translate_tokens` raise. -/
theorem translate_tokens_raises (wsl : String → Option String)
    (toks : List String) (t : String) :
    t ∈ toks → pathCandidate t = true → containsSub ['.', '.'] t.data = true →
    ∃ e, translate_tokens wsl toks = Except.error e := by
  induction toks with
  | nil => intro h; cases h
  | cons a rest ih =>
    intro hmem hc hdd
    rcases List.mem_cons.mp hmem with heq | htail
    · subst heq
      refine ⟨PyErr.valueError ("Invalid path detected: " ++ t), ?_⟩
      unfold translate_tokens
      rw [if_pos hc]
      unfold to_windows_path
      rw [validate_path_false_of_dotdot t hdd]
      simp
    · unfold translate_tokens
      rcases hhead : (if pathCandidate a then to_windows_path wsl a
          else Except.ok a) with e | v
      · exact ⟨e, rfl⟩
      · obtain ⟨e, he⟩ := ih htail hc hdd
        rw [he]
        exact ⟨e, rfl⟩

/-! Claim theorems. -/

/-- C1.  For every command string containing one of the control-operator
substrings the lexical pass covers (`;`, `&&`, `||`, `$(`, `*`, `?`,
`../`), DENY_REGEX matches, and `risky` does NOT return deny (`True`): the
deny branch evaluates `redact` in its logging line, which raises
`re.error`, so the denial surfaces as an exception for every parse
oracle. -/
theorem c1_control_ops_raise (parse : String → BashParse) (cmd : String)
    (h : containsSub [';'] cmd.data = true ∨
         containsSub ['&', '&'] cmd.data = true ∨
         containsSub ['|', '|'] cmd.data = true ∨
         containsSub ['$', '('] cmd.data = true ∨
         containsSub ['*'] cmd.data = true ∨
         containsSub ['?'] cmd.data = true ∨
         containsSub ['.', '.', '/'] cmd.data = true) :
    denyRegexMatches cmd = true ∧
    risky parse cmd = Except.error (PyErr.reError reInvalidGroupMsg) ∧
    risky parse cmd ≠ Except.ok true := by
  have hd : denyRegexMatches cmd = true := by
    unfold denyRegexMatches
    rcases h with h | h | h | h | h | h | h <;> simp [h]
  refine ⟨hd, risky_error_of_regex parse cmd hd, ?_⟩
  simp [risky_error_of_regex parse cmd hd]

/-- Witness for C1 at the repo test suite's input `cmd1; cmd2`. -/
theorem c1_control_ops_raise_witness :
    containsSub [';'] "cmd1; cmd2".data = true ∧
    (denyRegexMatches "cmd1; cmd2" = true ∧
     risky (fun _ => BashParse.tree false) "cmd1; cmd2" =
       Except.error (PyErr.reError reInvalidGroupMsg) ∧
     risky (fun _ => BashParse.tree false) "cmd1; cmd2" ≠ Except.ok true) :=
  ⟨by decide,
   c1_control_ops_raise (fun _ => BashParse.tree false) "cmd1; cmd2"
     (Or.inl (by decide))⟩

/-- C2.  For the end-to-end input `echo $HOME`, `main` never hands any
command to the session (the `redact` logging line raises first, for every
collaborator); and even the hand-off string the parse-and-convert block
builds is `list2cmdline(tokens)`, which still contains `HOME` and not
`$env:USERPROFILE` — the `map_env_vars` result is computed into a dead
variable. -/
theorem c2_env_mapping_unused :
    (∀ (wsl : String → Option String) (parse : String → BashParse)
       (runner : String → Int × String × String),
      main wsl parse runner "echo $HOME" =
        { exitCode := 1,
          stderrText :=
            "❌ Unexpected error: invalid group reference 1 at position 1\n",
          handed := none }) ∧
    parseAndConvert (fun _ => none) "echo $HOME" = Except.ok "echo $HOME" ∧
    containsSub "HOME".data "echo $HOME".data = true ∧
    containsSub "$env:USERPROFILE".data "echo $HOME".data = false ∧
    map_env_vars "echo $HOME" = "echo $env:USERPROFILE" :=
  ⟨fun _ _ _ => rfl, rfl, by decide, by decide, rfl⟩

/-- C3.  `redact` never returns redacted text: for every input (and
whatever rewriting the first, well-formed substitution would perform) it
raises `re.error("invalid group reference 1 at position 1")`, because the
second and third patterns have no capture group while the replacement
template references group 1 and CPython validates the template before
matching. -/
theorem c3_redact_always_raises (sub1 sub2 sub3 : String → String)
    (cmd : String) :
    redact sub1 sub2 sub3 cmd =
      Except.error (PyErr.reError reInvalidGroupMsg) :=
  redact_error sub1 sub2 sub3 cmd

/-- C4 counterexample.  Two token lists whose tokens contain no `..`
segment (and, for the first, no `..`-free guarantee is violated either)
on which `translate_tokens` raises `ValueError`: a path-shaped token with
a non-segment `..` substring, and a path-shaped token starting with `//`
that contains no `..` at all. -/
theorem c4_no_segment_still_raises :
    specDotDotSegment "/data/file..txt" = false ∧
    translate_tokens (fun _ => none) ["/data/file..txt"] =
      Except.error (PyErr.valueError "Invalid path detected: /data/file..txt") ∧
    specDotDotSegment "//srv/share" = false ∧
    containsSub ['.', '.'] "//srv/share".data = false ∧
    translate_tokens (fun _ => none) ["//srv/share"] =
      Except.error (PyErr.valueError "Invalid path detected: //srv/share") :=
  ⟨by decide, rfl, by decide, by decide, rfl⟩

/-- C4 (amended).  For every token list in which every path-shaped token
contains no `..` substring and does not start with `//`,
`translate_tokens` never raises: each path-shaped token is returned as the
converted value, or as the original token when the conversion collaborator
fails, and every non-path-shaped token passes through unchanged. -/
theorem c4_translate_total (wsl : String → Option String)
    (tokens : List String)
    (h : ∀ t ∈ tokens, pathCandidate t = true →
      containsSub ['.', '.'] t.data = false ∧
      prefixEq ['/', '/'] t.data = false) :
    translate_tokens wsl tokens =
      Except.ok (tokens.map
        (fun t => if pathCandidate t then convertOk wsl t else t)) ∧
    (∀ t, wsl t = none → convertOk wsl t = t) := by
  constructor
  · apply translate_tokens_total
    intro t ht hc
    obtain ⟨h1, h2⟩ := h t ht hc
    unfold validate_path
    rw [h1, h2]
    rfl
  · intro t hw
    unfold convertOk
    rw [hw]

/-- Witness for C4 (amended) on a mixed token list with a succeeding
conversion collaborator. -/
theorem c4_translate_total_witness :
    (∀ t ∈ ["echo", "/mnt/c/proj", "a..b"], pathCandidate t = true →
      containsSub ['.', '.'] t.data = false ∧
      prefixEq ['/', '/'] t.data = false) ∧
    (translate_tokens
        (fun p => if p = "/mnt/c/proj" then some " C:\\proj\n" else none)
        ["echo", "/mnt/c/proj", "a..b"] =
      Except.ok (["echo", "/mnt/c/proj", "a..b"].map
        (fun t => if pathCandidate t then
          convertOk
            (fun p => if p = "/mnt/c/proj" then some " C:\\proj\n" else none) t
          else t)) ∧
     ∀ t, (fun p => if p = "/mnt/c/proj" then some " C:\\proj\n" else none) t
        = none →
       convertOk
         (fun p => if p = "/mnt/c/proj" then some " C:\\proj\n" else none) t
         = t) ∧
    translate_tokens
        (fun p => if p = "/mnt/c/proj" then some " C:\\proj\n" else none)
        ["echo", "/mnt/c/proj", "a..b"] =
      Except.ok ["echo", "C:\\proj", "a..b"] :=
  ⟨by decide,
   c4_translate_total
     (fun p => if p = "/mnt/c/proj" then some " C:\\proj\n" else none)
     ["echo", "/mnt/c/proj", "a..b"] (by decide),
   rfl⟩

/-- C5.  When the child emits no line starting with `EXIT-CODE:` before
the deadline, `_execute_command` does NOT return the timeout exit code
124: the timeout branch evaluates `redact` in its logging line before the
`exit_code = 124` assignment, so the call ends in the raised `re.error`
(which `run` then converts into a restart-retry and, failing that, exit
code 1). -/
theorem c5_timeout_raises (env : ExecEnv) (timeout : Nat)
    (halive : env.procAlive = true) (hstdin : env.stdinOk = true)
    (hns : ∀ p ∈ env.events, p.1 < timeout →
      prefixEq "EXIT-CODE:".data p.2.data = false) :
    executeCommand env timeout =
      Except.error (PyErr.reError reInvalidGroupMsg) ∧
    ∀ outText errText : String,
      executeCommand env timeout ≠ Except.ok (124, outText, errText) := by
  have hloop := readLoop_no_sentinel timeout env.events [] hns
  have hmain : executeCommand env timeout =
      Except.error (PyErr.reError reInvalidGroupMsg) := by
    unfold executeCommand
    rw [halive, hstdin]
    simp [hloop]
  exact ⟨hmain, by simp [hmain]⟩

/-- Witness for C5: a live session whose child produces one ordinary line
and then nothing before the 30-second deadline. -/
theorem c5_timeout_raises_witness :
    ((⟨true, true, [(0, "still running\n")], []⟩ : ExecEnv).procAlive = true ∧
     (⟨true, true, [(0, "still running\n")], []⟩ : ExecEnv).stdinOk = true ∧
     (∀ p ∈ (⟨true, true, [(0, "still running\n")], []⟩ : ExecEnv).events,
        p.1 < 30 → prefixEq "EXIT-CODE:".data p.2.data = false)) ∧
    (executeCommand ⟨true, true, [(0, "still running\n")], []⟩ 30 =
       Except.error (PyErr.reError reInvalidGroupMsg) ∧
     ∀ outText errText : String,
       executeCommand ⟨true, true, [(0, "still running\n")], []⟩ 30 ≠
         Except.ok (124, outText, errText)) :=
  ⟨⟨rfl, rfl, by decide⟩,
   c5_timeout_raises ⟨true, true, [(0, "still running\n")], []⟩ 30
     rfl rfl (by decide)⟩

/-- C6.  Starting from an empty window with threshold 100 and a 60-second
window: 101 calls whose times all lie within the window anchored at the
first call produce 100 admissions followed by one denial, the denial does
not record its timestamp (the final queue is exactly the first 100 call
times), and once the earliest recorded timestamp has aged beyond 60
seconds a further call is admitted again. -/
theorem c6_admission (t0 tnew : Nat) (ts : List Nat)
    (hlen : ts.length = 100)
    (hwin : ∀ t ∈ ts, t0 ≤ t ∧ t ≤ t0 + 60)
    (hage : t0 + 60 < tnew) :
    (callSeq (t0 :: ts) []).1 = List.replicate 100 true ++ [false] ∧
    (callSeq (t0 :: ts) []).2 = t0 :: ts.take 99 ∧
    (check_rate_limit tnew (t0 :: ts.take 99)).1 = true := by
  obtain ⟨u, hu⟩ : ∃ u, ts.drop 99 = [u] := by
    have hd : (ts.drop 99).length = 1 := by
      rw [List.length_drop, hlen]
    cases hdrop : ts.drop 99 with
    | nil => rw [hdrop] at hd; simp at hd
    | cons u rest =>
      cases rest with
      | nil => exact ⟨u, rfl⟩
      | cons v w => rw [hdrop] at hd; simp at hd
  have htake_len : (ts.take 99).length = 99 := by
    rw [List.length_take, hlen]
    omega
  have happ : ts.take 99 ++ [u] = ts := by
    have h2 := List.take_append_drop 99 ts
    rw [hu] at h2
    exact h2
  have hsplit : t0 :: ts = (t0 :: ts.take 99) ++ [u] := by
    rw [List.cons_append]
    exact congrArg (List.cons t0) happ.symm
  have hwin_take : ∀ t ∈ ts.take 99, t0 ≤ t ∧ t ≤ t0 + 60 := by
    intro t ht; exact hwin t (List.take_subset 99 ts ht)
  have humem : u ∈ ts := List.drop_subset 99 ts (hu ▸ List.mem_singleton_self u)
  have hfill : callSeq (t0 :: ts.take 99) [] =
      (List.replicate 100 true, t0 :: ts.take 99) := by
    have := callSeq_fill t0 (t0 :: ts.take 99) []
      (by
        intro t ht
        rcases List.mem_cons.mp ht with heq | htl
        · refine ⟨by omega, by omega⟩
        · exact hwin_take t htl)
      (by intro h hh; cases hh)
      (by
        simp only [List.length_nil, List.length_cons, htake_len,
          MAX_COMMAND_RATE]
        omega)
    simpa [htake_len] using this
  have hprune_u : pruneOld u (t0 :: ts.take 99) = t0 :: ts.take 99 :=
    pruneOld_keep u t0 (ts.take 99) (by have := hwin u humem; omega)
  have hfull : check_rate_limit u (t0 :: ts.take 99) =
      (false, t0 :: ts.take 99) := by
    unfold check_rate_limit
    rw [hprune_u, if_pos]
    simp only [List.length_cons, htake_len, MAX_COMMAND_RATE]
    omega
  have hmain := callSeq_append (t0 :: ts.take 99) [u] []
  rw [← hsplit] at hmain
  rw [hmain, hfill]
  have hlast : callSeq [u] (t0 :: ts.take 99) =
      ([false], t0 :: ts.take 99) := by
    simp [callSeq, hfull]
  rw [hlast]
  refine ⟨rfl, rfl, ?_⟩
  have hdrop_t0 : pruneOld tnew (t0 :: ts.take 99) =
      pruneOld tnew (ts.take 99) :=
    pruneOld_drop tnew t0 (ts.take 99) (by omega)
  unfold check_rate_limit
  rw [hdrop_t0, if_neg]
  have := pruneOld_length_le tnew (ts.take 99)
  simp only [MAX_COMMAND_RATE]
  omega

/-- Witness for C6 at 101 calls at time 1000 and a revival call at 1061. -/
theorem c6_admission_witness :
    ((List.replicate 100 1000).length = 100 ∧
     (∀ t ∈ List.replicate 100 1000, 1000 ≤ t ∧ t ≤ 1000 + 60) ∧
     1000 + 60 < 1061) ∧
    ((callSeq (1000 :: List.replicate 100 1000) []).1 =
       List.replicate 100 true ++ [false] ∧
     (callSeq (1000 :: List.replicate 100 1000) []).2 =
       1000 :: (List.replicate 100 1000).take 99 ∧
     (check_rate_limit 1061
        (1000 :: (List.replicate 100 1000).take 99)).1 = true) :=
  ⟨⟨by simp, by
      intro t ht
      have := List.eq_of_mem_replicate ht
      omega, by omega⟩,
   c6_admission 1000 1061 (List.replicate 100 1000) (by simp)
     (by
       intro t ht
       have := List.eq_of_mem_replicate ht
       omega)
     (by omega)⟩

/-- C7.  When the first `_execute_command` raises, `run` makes exactly one
restart-plus-re-execute attempt; when the restart or the retry also fails
it returns the generic execution-failed result (exit code 1, error message
built from the first exception), and in every run at most two execute
attempts are ever made. -/
theorem c7_retry_once
    (execAttempt : Nat → Except PyErr (Int × String × String))
    (restart : Except PyErr Unit) (e : PyErr)
    (h0 : execAttempt 0 = Except.error e)
    (h1 : ∀ u : Unit, restart = Except.ok u →
      ∃ e2, execAttempt 1 = Except.error e2) :
    (runCmd true true execAttempt restart).1 =
      (1, "", "ERROR: Command execution failed: " ++ PyErr.msg e ++ "\n") ∧
    (runCmd true true execAttempt restart).2 ≤ 2 ∧
    (∀ (rateOk healthy : Bool)
       (ex : Nat → Except PyErr (Int × String × String))
       (rs : Except PyErr Unit), (runCmd rateOk healthy ex rs).2 ≤ 2) := by
  have hbound : ∀ (rateOk healthy : Bool)
      (ex : Nat → Except PyErr (Int × String × String))
      (rs : Except PyErr Unit), (runCmd rateOk healthy ex rs).2 ≤ 2 := by
    intro rateOk healthy ex rs
    unfold runCmd
    rcases rateOk with _ | _ <;> rcases healthy with _ | _ <;>
      rcases ex 0 with e0 | r0 <;> rcases rs with er | u <;>
      rcases ex 1 with e1 | r1 <;> simp
  refine ⟨?_, hbound true true execAttempt restart, hbound⟩
  unfold runCmd
  rcases hr : restart with er | u
  · simp [h0, hr]
  · obtain ⟨e2, he2⟩ := h1 u hr
    simp [h0, hr, he2]

/-- Witness for C7: a broken-pipe failure on both attempts with a
successful restart in between. -/
theorem c7_retry_once_witness :
    ((fun _ => Except.error (PyErr.runtimeError "PowerShell stdin pipe broken") :
        Nat → Except PyErr (Int × String × String)) 0 =
      Except.error (PyErr.runtimeError "PowerShell stdin pipe broken") ∧
     (∀ u : Unit, (Except.ok () : Except PyErr Unit) = Except.ok u →
       ∃ e2, (fun _ =>
          Except.error (PyErr.runtimeError "PowerShell stdin pipe broken") :
            Nat → Except PyErr (Int × String × String)) 1 =
         Except.error e2)) ∧
    ((runCmd true true
        (fun _ => Except.error (PyErr.runtimeError "PowerShell stdin pipe broken"))
        (Except.ok ())).1 =
      (1, "",
       "ERROR: Command execution failed: PowerShell stdin pipe broken\n") ∧
     (runCmd true true
        (fun _ => Except.error (PyErr.runtimeError "PowerShell stdin pipe broken"))
        (Except.ok ())).2 ≤ 2 ∧
     (∀ (rateOk healthy : Bool)
        (ex : Nat → Except PyErr (Int × String × String))
        (rs : Except PyErr Unit), (runCmd rateOk healthy ex rs).2 ≤ 2)) :=
  ⟨⟨rfl, fun _ _ =>
      ⟨PyErr.runtimeError "PowerShell stdin pipe broken", rfl⟩⟩,
   c7_retry_once
     (fun _ => Except.error (PyErr.runtimeError "PowerShell stdin pipe broken"))
     (Except.ok ()) (PyErr.runtimeError "PowerShell stdin pipe broken") rfl
     (fun _ _ =>
       ⟨PyErr.runtimeError "PowerShell stdin pipe broken", rfl⟩)⟩

/-- C8.  For the end-to-end input `rm -rf /`: nothing is ever handed to
the session and the exit code is 1, but the stderr message is the
unexpected-error message produced when the pre-validation `redact`
logging line raises, not the policy-blocked message — even though
DENY_REGEX does match the command. -/
theorem c8_rm_blocked_divergence (wsl : String → Option String)
    (parse : String → BashParse) (runner : String → Int × String × String) :
    main wsl parse runner "rm -rf /" =
      { exitCode := 1,
        stderrText :=
          "❌ Unexpected error: invalid group reference 1 at position 1\n",
        handed := none } ∧
    denyRegexMatches "rm -rf /" = true :=
  ⟨rfl, by decide⟩

/-- C9.  `validate_path` rejects every string containing the two-character
substring `..` anywhere — including `a..b` and `file..txt`, which have no
`..` path segment — and `translate_tokens` therefore raises on any token
list containing a path-shaped token with a `..` substring. -/
theorem c9_dotdot_substring :
    (∀ p : String, containsSub ['.', '.'] p.data = true →
      validate_path p = false) ∧
    (validate_path "a..b" = false ∧ specDotDotSegment "a..b" = false) ∧
    (validate_path "file..txt" = false ∧
      specDotDotSegment "file..txt" = false) ∧
    (∀ (wsl : String → Option String) (toks : List String) (t : String),
      t ∈ toks → pathCandidate t = true →
      containsSub ['.', '.'] t.data = true →
      ∃ e, translate_tokens wsl toks = Except.error e) :=
  ⟨validate_path_false_of_dotdot,
   ⟨by decide, by decide⟩,
   ⟨by decide, by decide⟩,
   fun wsl toks t => translate_tokens_raises wsl toks t⟩

/-- Witness for C9 on the path-shaped token `/mnt/c/a..b` inside a larger
token list. -/
theorem c9_dotdot_substring_witness :
    containsSub ['.', '.'] "/mnt/c/a..b".data = true ∧
    validate_path "/mnt/c/a..b" = false ∧
    ("/mnt/c/a..b" ∈ ["copy", "/mnt/c/a..b"] ∧
     pathCandidate "/mnt/c/a..b" = true) ∧
    (∃ e, translate_tokens (fun _ => none) ["copy", "/mnt/c/a..b"] =
      Except.error e) :=
  ⟨by decide,
   c9_dotdot_substring.1 "/mnt/c/a..b" (by decide),
   ⟨by decide, by decide⟩,
   c9_dotdot_substring.2.2.2 (fun _ => none) ["copy", "/mnt/c/a..b"]
     "/mnt/c/a..b" (by decide) (by decide) (by decide)⟩

/-- C10.  Whenever a denylisted binary name occurs word-bounded and
case-insensitively anywhere in the command string — not only as the
command-name token — DENY_REGEX matches, so the lexical pass trips and
`risky` never returns the allow verdict (the denial itself surfaces as the
`re.error` raised by the deny branch's `redact` logging call). -/
theorem c10_word_bounded_denylist (parse : String → BashParse) (cmd : String)
    (h : denyWordHit cmd.data = true) :
    denyRegexMatches cmd = true ∧
    risky parse cmd = Except.error (PyErr.reError reInvalidGroupMsg) ∧
    risky parse cmd ≠ Except.ok false := by
  have hd : denyRegexMatches cmd = true := by
    unfold denyRegexMatches
    simp [h]
  refine ⟨hd, risky_error_of_regex parse cmd hd, ?_⟩
  simp [risky_error_of_regex parse cmd hd]

/-- Witness for C10: `ls` as an argument word (`Get-Content ls.txt`) and a
case-insensitive occurrence (`Invoke-Item CAT.jpg`). -/
theorem c10_word_bounded_denylist_witness :
    denyWordHit "Get-Content ls.txt".data = true ∧
    (denyRegexMatches "Get-Content ls.txt" = true ∧
     risky (fun _ => BashParse.tree false) "Get-Content ls.txt" =
       Except.error (PyErr.reError reInvalidGroupMsg) ∧
     risky (fun _ => BashParse.tree false) "Get-Content ls.txt" ≠
       Except.ok false) ∧
    denyWordHit "Invoke-Item CAT.jpg".data = true ∧
    (denyRegexMatches "Invoke-Item CAT.jpg" = true ∧
     risky (fun _ => BashParse.tree false) "Invoke-Item CAT.jpg" =
       Except.error (PyErr.reError reInvalidGroupMsg) ∧
     risky (fun _ => BashParse.tree false) "Invoke-Item CAT.jpg" ≠
       Except.ok false) :=
  ⟨by decide,
   c10_word_bounded_denylist (fun _ => BashParse.tree false)
     "Get-Content ls.txt" (by decide),
   by decide,
   c10_word_bounded_denylist (fun _ => BashParse.tree false)
     "Invoke-Item CAT.jpg" (by decide)⟩

end CSW
